import Mathlib

set_option maxHeartbeats 1000000

/-!
Verification of the go-config runtime configuration aggregator
(package `config`, file consul.go's second document, plus its data model).

The aggregator core (`config` struct: watch loops, sync, reload, Load, Get,
Watch, watcher Next/Stop, update fan-out) is embedded shallowly below.
Stateful Go code becomes explicit state passing on `ConfigState` /
`WatcherState`; goroutine nondeterminism (the `select` in `watcher.Next`,
the order of acquisition attempts in `config.watch`) is resolved by explicit
oracle parameters; the `sync.RWMutex` is tracked only where the code can
return while still holding it (a `Bool` component meaning "lock still held",
which makes every later lock acquisition block forever).

The Reader (merge engine) and the document format are external to the core
(they live in reader/json, not in this tree); they are modelled from the
spec: a structured document `Doc`, a JSON-subset codec, and a deep
key-by-key merge where the higher-index source wins.
-/

namespace GoConfig

/-- Modelled from the spec: the format-agnostic structured document that a
ChangeSet's data bytes encode (reader/json is not part of the core).
Scalars are naturals; objects are ordered key/value lists. -/
inductive Doc where
  | nat (n : Nat)
  | obj (kvs : List (String × Doc))

/-- Decimal digit bytes of a natural number. -/
def encN (n : Nat) : List Nat := (Nat.toDigits 10 n).map Char.toNat

/-- Byte encoding of an object key: a double-quoted string. -/
def encKey (k : String) : List Nat := 34 :: k.data.map Char.toNat ++ [34]

mutual
/-- Modelled from the spec: serialization of a document to bytes (the
Reader's byte form used for equality comparison); a JSON subset, so the
empty object serializes to the two bytes of the literal used by the core's
synthetic empty ChangeSet. -/
def encodeDoc : Doc → List Nat
  | .nat n => encN n
  | .obj [] => [123, 125]
  | .obj (kv :: kvs) => 123 :: encodeFields (kv :: kvs)

/-- Field list serialization, including the closing brace. -/
def encodeFields : List (String × Doc) → List Nat
  | [] => [125]
  | [(k, v)] => encKey k ++ 58 :: encodeDoc v ++ [125]
  | (k, v) :: kv :: kvs => encKey k ++ 58 :: encodeDoc v ++ 44 :: encodeFields (kv :: kvs)
end

/-- Byte serialization of a value, for the dedup byte comparison. -/
def Doc.bytes (d : Doc) : List Nat := encodeDoc d

/-- Parse a double-quoted key body (input starts after the opening quote). -/
def parseKey : List Nat → Option (String × List Nat)
  | [] => none
  | 34 :: rest => some ("", rest)
  | c :: rest =>
    match parseKey rest with
    | none => none
    | some (s, r) => some (⟨Char.ofNat c :: s.data⟩, r)

/-- Accumulate decimal digits. -/
def parseNatAux : List Nat → Nat → Nat × List Nat
  | [], acc => (acc, [])
  | c :: rest, acc =>
    if 48 ≤ c ∧ c ≤ 57 then parseNatAux rest (acc * 10 + (c - 48))
    else (acc, c :: rest)

mutual
/-- Modelled from the spec: decoding a byte buffer into a structured
document (fuel-indexed recursive descent over the JSON subset). -/
def parseDoc : Nat → List Nat → Option (Doc × List Nat)
  | 0, _ => none
  | _ + 1, [] => none
  | fuel + 1, 123 :: rest =>
    match rest with
    | 125 :: rest2 => some (.obj [], rest2)
    | _ =>
      match parseFields fuel rest with
      | none => none
      | some (kvs, rest2) => some (.obj kvs, rest2)
  | _ + 1, c :: rest =>
    if 48 ≤ c ∧ c ≤ 57 then some (.nat (parseNatAux rest (c - 48)).1, (parseNatAux rest (c - 48)).2)
    else none

/-- Parse one or more comma-separated fields up to the closing brace. -/
def parseFields : Nat → List Nat → Option (List (String × Doc) × List Nat)
  | 0, _ => none
  | fuel + 1, 34 :: rest =>
    match parseKey rest with
    | none => none
    | some (k, rest2) =>
      match rest2 with
      | 58 :: rest3 =>
        match parseDoc fuel rest3 with
        | none => none
        | some (v, rest4) =>
          match rest4 with
          | 44 :: rest5 =>
            match parseFields fuel rest5 with
            | none => none
            | some (kvs, rest6) => some ((k, v) :: kvs, rest6)
          | 125 :: rest5 => some ([(k, v)], rest5)
          | _ => none
      | _ => none
  | _ + 1, _ => none
end

/-- Decode a whole byte buffer into a document; fails on malformed or
trailing input. -/
def decodeDoc (bs : List Nat) : Option Doc :=
  match parseDoc (bs.length + 1) bs with
  | some (d, []) => some d
  | _ => none

mutual
/-- Modelled from the spec: the Merge Engine's deep, key-by-key combination
of two documents; the right-hand (higher-index) document wins on conflict,
nested objects are merged recursively, a non-object replaces wholesale. -/
def mergeDocs : Doc → Doc → Doc
  | .obj a, .obj b => .obj (mergeInto a b)
  | _, b => b
termination_by a b => (sizeOf b, 0)
decreasing_by
  all_goals simp_wf
  all_goals first
    | (apply Prod.Lex.left; simp_arith; done)
    | (apply Prod.Lex.right; simp_arith; done)

/-- Merge every field of the second list into the first. -/
def mergeInto : List (String × Doc) → List (String × Doc) → List (String × Doc)
  | acc, [] => acc
  | acc, (k, v) :: rest => mergeInto (insertKey acc k v) rest
termination_by a b => (sizeOf b, 0)
decreasing_by
  all_goals simp_wf
  all_goals first
    | (apply Prod.Lex.left; simp_arith; done)
    | (apply Prod.Lex.right; simp_arith; done)

/-- Insert one field: override or recursively merge an existing key,
append a fresh one. -/
def insertKey : List (String × Doc) → String → Doc → List (String × Doc)
  | [], k, v => [(k, v)]
  | (k', v') :: t, k, v =>
    if k' = k then (k', mergeDocs v' v) :: t
    else (k', v') :: insertKey t k v
termination_by t k v => (1 + sizeOf v, sizeOf t)
decreasing_by
  all_goals simp_wf
  all_goals first
    | (apply Prod.Lex.left; simp_arith; done)
    | (apply Prod.Lex.right; simp_arith; done)
end

/-- Ordered lookup of a key in a field list. -/
def lookupKey : List (String × Doc) → String → Option Doc
  | [], _ => none
  | (k', v) :: t, k => if k' = k then some v else lookupKey t k

/-- Modelled from the spec: the empty value the read path falls back to
(newValue in the Go code). -/
def newValue : Doc := .obj []

/-- Path lookup in a value tree; a missing path yields the empty value. -/
def Doc.getPath : Doc → List String → Doc
  | d, [] => d
  | .obj kvs, k :: rest =>
    match lookupKey kvs k with
    | some v => Doc.getPath v rest
    | none => newValue
  | _, _ :: _ => newValue

/-- Boolean predicate: the document does not bind key k at top level. -/
def lacksKey (k : String) : Doc → Bool
  | .obj kvs => kvs.all fun p => p.1 != k
  | _ => true

/-- The source.ChangeSet value: source name, raw data bytes (`none` models a
nil byte slice), checksum and timestamp. -/
structure ChangeSet where
  source : String
  data : Option (List Nat)
  checksum : String
  timestamp : Nat
deriving DecidableEq

/-- A configured source, reduced to its synchronous Read capability as the
core uses it: `none` models Read returning a non-nil error. -/
structure Source where
  read : Option ChangeSet
deriving DecidableEq

/-- The Reader capability the core is parametric in (reader.Reader):
Parse merges an ordered slot list (entries may be nil) into a merged
ChangeSet or fails (`none`); Values builds the queryable tree from a
(possibly nil) ChangeSet or fails (`none`). -/
structure Reader where
  parse : List (Option ChangeSet) → Option ChangeSet
  values : Option ChangeSet → Option Doc

/-- Decode every present slot in order, skipping nil entries; fail if any
present slot is malformed. -/
def decodeSlots : List (Option ChangeSet) → Option (List Doc)
  | [] => some []
  | none :: rest => decodeSlots rest
  | some ch :: rest =>
    match ch.data with
    | none => none
    | some bs =>
      match decodeDoc bs with
      | none => none
      | some d =>
        match decodeSlots rest with
        | none => none
        | some ds => some (d :: ds)

/-- Modelled from the spec: the JSON Reader's Parse (reader/json is not in
this tree) — merge the decoded slots left to right so the highest index
wins, skipping absent slots; any malformed present slot fails the whole
merge. -/
def jsonParse (slots : List (Option ChangeSet)) : Option ChangeSet :=
  match decodeSlots slots with
  | none => none
  | some docs =>
    some { source := "json", data := some (encodeDoc (docs.foldl mergeDocs newValue)),
           checksum := "", timestamp := 0 }

/-- Modelled from the spec: the JSON Reader's Values — decode the merged
ChangeSet's bytes into the queryable tree; fails on a nil ChangeSet, nil
data or malformed data. -/
def jsonValues : Option ChangeSet → Option Doc
  | none => none
  | some ch =>
    match ch.data with
    | none => none
    | some bs => decodeDoc bs

/-- The default Reader the core is wired with. -/
def jsonReader : Reader := { parse := jsonParse, values := jsonValues }

/-- State of one watcher object: exit channel closed flag, subscribed path,
last returned value (initially the baseline captured by Watch), and the
capacity-one inbound updates channel (`some` = occupied). -/
structure WatcherState where
  exitClosed : Bool
  path : List String
  value : Doc
  buffer : Option Doc

/-- Result of one watcher.Next call: the stopped error, a delivered value,
or blocking forever (no stop signal and no further delivery). -/
inductive NextOutcome where
  | stopped
  | value (v : Doc)
  | blocked

/-- State of the config aggregator (struct config). `exitClosed` is the
process-wide exit channel; `sets` is the slot array; `watchers` the
registry keyed by id. -/
structure ConfigState where
  exitClosed : Bool
  set : Option ChangeSet
  vals : Option Doc
  sets : List (Option ChangeSet)
  sources : List Source
  idx : Nat
  watchers : List (Nat × WatcherState)

/-- newConfig: fresh state; note the slot array starts EMPTY — each spawned
watch goroutine appends its own slot later (watchPrologue). -/
def newConfig (srcs : List Source) : ConfigState :=
  { exitClosed := false, set := none, vals := none, sets := [],
    sources := srcs, idx := 0, watchers := [] }

/-- config.loaded: whether a merge has produced a value tree. -/
def loaded (c : ConfigState) : Bool := c.vals.isSome

/-- Non-blocking send into the capacity-one updates channel
(select with default): an occupied buffer drops the new value. -/
def trySend (buf : Option Doc) (v : Doc) : Option Doc :=
  match buf with
  | none => some v
  | some old => some old

/-- config.update: fan out the value at each watcher's path via a
non-blocking send. (When c.vals is nil the Go code would dereference a nil
interface; no modelled scenario reaches that.) -/
def update (c : ConfigState) : ConfigState :=
  match c.vals with
  | some vals =>
    { c with watchers := c.watchers.map fun p =>
        (p.1, { p.2 with buffer := trySend p.2.buffer (Doc.getPath vals p.2.path) }) }
  | none => c

/-- The first statements of config.watch: append a nil slot under the lock.
Runs once at the start of every ingestion goroutine (both those spawned by
newConfig and those spawned by Load). -/
def watchPrologue (c : ConfigState) : ConfigState :=
  { c with sets := c.sets ++ [none] }

/-- One iteration of the inner pull loop of config.watch, after s.Next()
delivered cs: store cs into slot idx, re-merge all slots, update vals/set
and fan out. Result: (state, lock still held, returned error). On Parse
failure the Go code returns the error WITHOUT unlocking, hence the true
flag. (Requires idx < c.sets.length; otherwise the Go slice write panics.) -/
def watchStep (R : Reader) (idx : Nat) (cs : ChangeSet) (c : ConfigState) :
    ConfigState × Bool × Option Unit :=
  let sets' := c.sets.set idx (some cs)
  match R.parse sets' with
  | none => ({ c with sets := sets' }, true, some ())
  | some st =>
    (update { c with sets := sets', vals := R.values (some st), set := some st }, false, none)

/-- Outcome of one round of the outer re-acquire loop of config.watch:
either s.Watch() failed, or it succeeded and the inner pull loop ran until
it returned an error. -/
inductive AcqResult where
  | fail
  | ok
deriving DecidableEq

/-- The outer re-acquire loop of config.watch, driven by a trace of
acquisition outcomes while the exit channel state is fixed: a failed
acquisition sleeps and continues WITHOUT checking the exit channel; only
after a successful acquisition cycle does the loop check it. Result: true
iff the goroutine returned within the trace. -/
def watchLoop (exitClosed : Bool) (events : List AcqResult) : Bool :=
  match events with
  | [] => false
  | .fail :: rest => watchLoop exitClosed rest
  | .ok :: rest => if exitClosed then true else watchLoop exitClosed rest

/-- config.sync: the one-shot bootstrap — Read every source, ignoring
individual failures, merge, store, fan out. Second component true means
sync RETURNED WHILE STILL HOLDING the exclusive lock (the Parse-failure
branch returns without Unlock), so every later lock acquisition blocks. -/
def sync (R : Reader) (c : ConfigState) : ConfigState × Bool :=
  let sets : List (Option ChangeSet) := c.sources.filterMap fun s => s.read.map some
  match R.parse sets with
  | none => (c, true)
  | some st => (update { c with vals := R.values (some st), set := some st }, false)

/-- config.reload: re-merge the current slot array and fan out; on Parse
failure it unlocks and returns, leaving the state unchanged. -/
def reload (R : Reader) (c : ConfigState) : ConfigState :=
  match R.parse c.sets with
  | none => c
  | some st => update { c with vals := R.values (some st), set := some st }

/-- One iteration of config.Load's loop body: Read the source once
(ignoring failure — a failed Read appends a nil slot), append it to the
source list and the slot array under the lock. The spawned watch goroutine
(go c.watch(idx, source)) additionally runs watchPrologue asynchronously. -/
def loadOne (c : ConfigState) (s : Source) : ConfigState :=
  { c with sources := c.sources ++ [s], sets := c.sets ++ [s.read] }

/-- config.Load: add the sources, then one immediate re-merge and fan-out;
always returns a nil error. -/
def Load (R : Reader) (c : ConfigState) (ss : List Source) : ConfigState × Option Unit :=
  (reload R (ss.foldl loadOne c), none)

/-- The synthetic empty ChangeSet Get substitutes on total failure:
empty document bytes, current timestamp, reserved source name. -/
def syntheticCS (now : Nat) : ChangeSet :=
  { source := "config", data := some [123, 125], checksum := "", timestamp := now }

/-- config.Get: run the bootstrap if nothing is loaded, then read the value
at the path under the lock, with the fallback chain of the Go code. The
first component is none exactly when the call never returns: sync's
Parse-failure branch keeps the exclusive lock, so Get's own Lock() blocks
forever. -/
def Get (R : Reader) (c : ConfigState) (path : List String) (now : Nat) :
    Option Doc × ConfigState :=
  let p := if loaded c then (c, false) else sync R c
  if p.2 then (none, p.1)
  else
    let c1 := p.1
    match c1.vals with
    | some v => (some (Doc.getPath v path), c1)
    | none =>
      let ch := c1.set
      match R.values ch with
      | some v => (some (Doc.getPath v path), { c1 with vals := some v })
      | none =>
        let ch2 : Option ChangeSet :=
          match ch with
          | none => some (syntheticCS now)
          | some cs => if cs.data = none then some (syntheticCS now) else some cs
        match R.values ch2 with
        | some v => (some (Doc.getPath v path), { c1 with vals := some v })
        | none => (some newValue, c1)

/-- config.Watch: capture the current value at the path as baseline,
register a fresh watcher under the next id with an empty capacity-one
buffer. none if the underlying Get blocks. -/
def Watch (R : Reader) (c : ConfigState) (path : List String) (now : Nat) :
    Option (WatcherState × Nat × ConfigState) :=
  match Get R c path now with
  | (none, _) => none
  | (some v, c1) =>
    let w : WatcherState := { exitClosed := false, path := path, value := v, buffer := none }
    some (w, c1.idx, { c1 with watchers := c1.watchers ++ [(c1.idx, w)], idx := c1.idx + 1 })

/-- config.Close: close the exit channel once (idempotent); nil error. -/
def Close (c : ConfigState) : ConfigState × Option Unit :=
  ({ c with exitClosed := true }, none)

/-- watcher.Stop together with the registry-removal goroutine that Watch
spawned (it fires exactly when the exit channel transitions to closed):
a second Stop finds the channel closed and does nothing. Always returns a
nil error. -/
def Stop (w : WatcherState) (id : Nat) (reg : List (Nat × WatcherState)) :
    WatcherState × List (Nat × WatcherState) × Option Unit :=
  if w.exitClosed then (w, reg, none)
  else ({ w with exitClosed := true }, reg.filter fun p => p.1 != id, none)

/-- The for/select loop of watcher.Next, over the watcher's fields (the
loop mutates only the last returned value and the buffer). `arrivals` are
the values update() sends into the buffer during this call, in order;
`sched` resolves the select nondeterminism when both the closed exit
channel and an occupied buffer are ready (true = the exit branch wins; an
exhausted oracle defaults to the exit branch). A received value byte-equal
to the last returned value is discarded and the select loops; a differing
one is returned and recorded. -/
def NextLoop (exitClosed : Bool) (path : List String) (value : Doc) :
    Option Doc → List Doc → List Bool → NextOutcome × WatcherState
  | some v, arrivals, sched =>
    if exitClosed && sched.headD true then
      (.stopped, ⟨exitClosed, path, value, some v⟩)
    else if Doc.bytes v = Doc.bytes value then
      NextLoop exitClosed path value none arrivals sched.tail
    else (.value v, ⟨exitClosed, path, v, none⟩)
  | none, arrivals, sched =>
    if exitClosed then (.stopped, ⟨exitClosed, path, value, none⟩)
    else
      match arrivals with
      | [] => (.blocked, ⟨exitClosed, path, value, none⟩)
      | a :: rest => NextLoop exitClosed path value (some a) rest sched.tail
termination_by buffer arrivals _ =>
  2 * arrivals.length + (match buffer with | some _ => 1 | none => 0)
decreasing_by
  all_goals simp
  all_goals omega

/-- watcher.Next on a watcher state. -/
def Next (w : WatcherState) (arrivals : List Doc) (sched : List Bool) :
    NextOutcome × WatcherState :=
  NextLoop w.exitClosed w.path w.value w.buffer arrivals sched

/-! Concrete fixtures used by the closed theorems: two well-formed sources
(one binding key a, one binding key d), one source delivering malformed
bytes, and an aggregator state holding a previously valid merge of the
first source. -/

/-- The document binding a to 1. -/
def docA : Doc := .obj [("a", Doc.nat 1)]

/-- Bytes of the document binding a to 1. -/
def bytesA : List Nat := [123, 34, 97, 34, 58, 49, 125]

/-- Bytes of the document binding d to 5. -/
def bytesD : List Nat := [123, 34, 100, 34, 58, 53, 125]

/-- ChangeSet delivered by the first source. -/
def chA : ChangeSet := { source := "a", data := some bytesA, checksum := "", timestamp := 0 }

/-- ChangeSet delivered by the dynamically loaded source. -/
def chD : ChangeSet := { source := "d", data := some bytesD, checksum := "", timestamp := 0 }

/-- A ChangeSet whose data does not decode (byte 99 alone is not a
document). -/
def badCS : ChangeSet := { source := "consul", data := some [99], checksum := "", timestamp := 1 }

/-- Source that reads chA successfully. -/
def srcA : Source := ⟨some chA⟩

/-- Source that reads chD successfully. -/
def srcD : Source := ⟨some chD⟩

/-- Source whose Read succeeds but yields malformed data. -/
def badSrc : Source := ⟨some badCS⟩

/-- The merged ChangeSet for the slot array holding only chA. -/
def mergedA : ChangeSet := { source := "json", data := some (encodeDoc docA), checksum := "", timestamp := 0 }

/-- An aggregator state with one source whose delivery merged successfully:
a previously valid merged state. -/
def cfgPrior : ConfigState :=
  { exitClosed := false, set := some mergedA, vals := some docA,
    sets := [some chA], sources := [srcA], idx := 0, watchers := [] }

/-- A fresh aggregator over the malformed source, before any merge. -/
def cfgBad : ConfigState := newConfig [badSrc]

/-- A stopped watcher with a pending differing value in its buffer. -/
def wStopPending : WatcherState :=
  { exitClosed := true, path := [], value := Doc.nat 1, buffer := some (Doc.nat 2) }

/-- A stopped watcher with a drained buffer. -/
def wStopEmpty : WatcherState :=
  { exitClosed := true, path := [], value := Doc.nat 1, buffer := none }

/-- A live watcher with a pending differing value. -/
def wLive : WatcherState :=
  { exitClosed := false, path := [], value := Doc.nat 1, buffer := some (Doc.nat 2) }

/-- The state of wLive after Next returns that value. -/
def wLiveAfter : WatcherState :=
  { exitClosed := false, path := [], value := Doc.nat 2, buffer := none }

/-- A watcher whose inbound buffer is occupied. -/
def wFull : WatcherState := { exitClosed := false, path := ["a"], value := newValue, buffer := some (Doc.nat 9) }

/-- A watcher whose inbound buffer is free. -/
def wEmpty : WatcherState := { exitClosed := false, path := ["a"], value := newValue, buffer := none }

/-- An aggregator state with two registered watchers, one occupied and one
free. -/
def cfgW : ConfigState :=
  { exitClosed := false, set := none, vals := some docA, sets := [], sources := [],
    idx := 2, watchers := [(0, wFull), (1, wEmpty)] }

/-! Helper lemmas shared by the claim theorems. -/

theorem update_sets (c : ConfigState) : (update c).sets = c.sets := by
  cases h : c.vals <;> simp [update, h]

theorem update_sources (c : ConfigState) : (update c).sources = c.sources := by
  cases h : c.vals <;> simp [update, h]

theorem update_vals (c : ConfigState) : (update c).vals = c.vals := by
  cases h : c.vals <;> simp [update, h]

theorem reload_sets (R : Reader) (c : ConfigState) : (reload R c).sets = c.sets := by
  unfold reload
  cases h : R.parse c.sets <;> simp [update_sets]

theorem reload_sources (R : Reader) (c : ConfigState) : (reload R c).sources = c.sources := by
  unfold reload
  cases h : R.parse c.sets <;> simp [update_sources]

theorem reload_vals (R : Reader) (c : ConfigState) (st : ChangeSet)
    (h : R.parse c.sets = some st) :
    (reload R c).vals = R.values (some st) := by
  unfold reload
  rw [h]
  show (update { c with vals := R.values (some st), set := some st }).vals = R.values (some st)
  rw [update_vals]

theorem insertKey_all_ne (kvs : List (String × Doc)) (k' : String) (v : Doc) (k : String)
    (hk : k' ≠ k) (h : (kvs.all fun p => p.1 != k) = true) :
    ((insertKey kvs k' v).all fun p => p.1 != k) = true := by
  induction kvs with
  | nil => simp [insertKey, hk]
  | cons p t ih =>
    obtain ⟨k0, v0⟩ := p
    simp only [List.all_cons, Bool.and_eq_true] at h
    by_cases he : k0 = k'
    · rw [insertKey, if_pos he]
      simp only [List.all_cons, Bool.and_eq_true]
      exact ⟨h.1, h.2⟩
    · rw [insertKey, if_neg he]
      simp only [List.all_cons, Bool.and_eq_true]
      exact ⟨h.1, ih h.2⟩

theorem mergeInto_all_ne (b a : List (String × Doc)) (k : String)
    (ha : (a.all fun p => p.1 != k) = true) (hb : (b.all fun p => p.1 != k) = true) :
    ((mergeInto a b).all fun p => p.1 != k) = true := by
  induction b generalizing a with
  | nil => rw [mergeInto]; exact ha
  | cons p t ih =>
    obtain ⟨k0, v0⟩ := p
    simp only [List.all_cons, Bool.and_eq_true, bne_iff_ne, ne_eq] at hb
    rw [mergeInto]
    exact ih (insertKey a k0 v0) (insertKey_all_ne a k0 v0 k hb.1 ha) hb.2

theorem mergeDocs_lacksKey (a b : Doc) (k : String)
    (ha : lacksKey k a = true) (hb : lacksKey k b = true) :
    lacksKey k (mergeDocs a b) = true := by
  cases a with
  | nat n => cases b <;> simpa [mergeDocs, lacksKey] using hb
  | obj kvsa =>
    cases b with
    | nat m => simp [mergeDocs, lacksKey]
    | obj kvsb =>
      rw [mergeDocs]
      simp only [lacksKey] at ha hb ⊢
      exact mergeInto_all_ne kvsb kvsa k ha hb

theorem foldl_mergeDocs_lacksKey (docs : List Doc) (init : Doc) (k : String)
    (hi : lacksKey k init = true) (hd : (docs.all (lacksKey k)) = true) :
    lacksKey k (docs.foldl mergeDocs init) = true := by
  induction docs generalizing init with
  | nil => simpa using hi
  | cons d t ih =>
    simp only [List.all_cons, Bool.and_eq_true] at hd
    simp only [List.foldl_cons]
    exact ih (mergeDocs init d) (mergeDocs_lacksKey init d k hi hd.1) hd.2

theorem lookupKey_insertKey_self (kvs : List (String × Doc)) (k : String) (d : Doc)
    (h : (kvs.all fun p => p.1 != k) = true) :
    lookupKey (insertKey kvs k d) k = some d := by
  induction kvs with
  | nil => rw [insertKey]; simp [lookupKey]
  | cons p t ih =>
    obtain ⟨k0, v0⟩ := p
    simp only [List.all_cons, Bool.and_eq_true, bne_iff_ne, ne_eq] at h
    rw [insertKey, if_neg h.1]
    rw [lookupKey, if_neg h.1]
    exact ih (by
      simp only [List.all_eq_true] at h ⊢
      intro p hp
      exact h.2 p hp)

theorem getPath_merge_singleton (base : Doc) (k : String) (d : Doc)
    (h : lacksKey k base = true) :
    Doc.getPath (mergeDocs base (Doc.obj [(k, d)])) [k] = d := by
  cases base with
  | nat n =>
    simp [mergeDocs, Doc.getPath, lookupKey]
  | obj kvs =>
    have hm : mergeDocs (Doc.obj kvs) (Doc.obj [(k, d)]) = Doc.obj (insertKey kvs k d) := by
      rw [mergeDocs, mergeInto, mergeInto]
    rw [hm]
    simp only [lacksKey] at h
    simp [Doc.getPath, lookupKey_insertKey_self kvs k d h]

theorem decodeSlots_append_single (xs : List (Option ChangeSet)) (ch : ChangeSet)
    (bs : List Nat) (d : Doc) (docs : List Doc)
    (hx : decodeSlots xs = some docs) (hd : ch.data = some bs) (hdec : decodeDoc bs = some d) :
    decodeSlots (xs ++ [some ch]) = some (docs ++ [d]) := by
  induction xs generalizing docs with
  | nil =>
    simp only [decodeSlots] at hx
    obtain rfl : docs = [] := by injection hx with h; exact h.symm
    simp [decodeSlots, hd, hdec]
  | cons x t ih =>
    rw [List.cons_append]
    cases x with
    | none =>
      rw [decodeSlots] at hx
      rw [decodeSlots]
      exact ih docs hx
    | some c0 =>
      cases hc : c0.data with
      | none => simp [decodeSlots, hc] at hx
      | some bs0 =>
        cases hdc : decodeDoc bs0 with
        | none => simp [decodeSlots, hc, hdc] at hx
        | some d0 =>
          cases hrest : decodeSlots t with
          | none => simp [decodeSlots, hc, hdc, hrest] at hx
          | some ds0 =>
            simp only [decodeSlots, hc, hdc, hrest] at hx
            obtain rfl : docs = d0 :: ds0 := by injection hx with h; exact h.symm
            simp [decodeSlots, hc, hdc, ih ds0 hrest]

theorem nextLoop_dedup (exitClosed : Bool) (path : List String) (value : Doc)
    (buffer : Option Doc) (arrivals : List Doc) (sched : List Bool)
    (v : Doc) (w' : WatcherState)
    (h : NextLoop exitClosed path value buffer arrivals sched = (.value v, w')) :
    Doc.bytes v ≠ Doc.bytes value ∧ w'.value = v := by
  revert h
  induction buffer, arrivals, sched using NextLoop.induct exitClosed path value with
  | case1 v0 arrivals sched hcond =>
    rw [NextLoop, if_pos hcond]
    intro h
    simp at h
  | case2 v0 arrivals sched hcond hdup ih =>
    rw [NextLoop, if_neg hcond, if_pos hdup]
    exact ih
  | case3 v0 arrivals sched hcond hdiff =>
    rw [NextLoop, if_neg hcond, if_neg hdiff]
    intro h
    injection h with h1 h2
    injection h1 with hv
    subst hv
    subst h2
    exact ⟨hdiff, rfl⟩
  | case4 arrivals sched hexit =>
    cases arrivals <;>
      · rw [NextLoop, if_pos hexit]
        intro h
        simp at h
  | case5 sched hexit =>
    rw [NextLoop, if_neg hexit]
    intro h
    simp at h
  | case6 sched hexit a rest ih =>
    rw [NextLoop, if_neg hexit]
    exact ih

theorem nextLoop_stopped (path : List String) (value : Doc)
    (buffer : Option Doc) (arrivals : List Doc) (sched : List Bool) :
    (buffer = none →
      NextLoop true path value buffer arrivals sched = (.stopped, ⟨true, path, value, none⟩)) ∧
    (NextLoop true path value buffer arrivals sched).1 ≠ NextOutcome.blocked ∧
    (∀ v w', NextLoop true path value buffer arrivals sched = (.value v, w') →
      buffer = some v ∧ w'.buffer = none) := by
  cases buffer with
  | none =>
    cases arrivals <;>
      · rw [NextLoop, if_pos rfl]
        simp
  | some v0 =>
    refine ⟨by simp, ?_⟩
    rw [NextLoop]
    by_cases hs : (true && sched.headD true) = true
    · rw [if_pos hs]
      constructor
      · simp
      · intro v w' h
        simp at h
    · rw [if_neg hs]
      by_cases hd : Doc.bytes v0 = Doc.bytes value
      · rw [if_pos hd]
        have hrec : NextLoop true path value none arrivals sched.tail
            = (.stopped, ⟨true, path, value, none⟩) := by
          cases arrivals <;> rw [NextLoop, if_pos rfl]
        rw [hrec]
        constructor
        · simp
        · intro v w' h
          simp at h
      · rw [if_neg hd]
        constructor
        · simp
        · intro v w' h
          injection h with h1 h2
          injection h1 with hv
          subst hv
          subst h2
          exact ⟨rfl, rfl⟩

/-! The claim theorems. -/

/-- C1: the claim states that on a merge (Parse) failure in the ingestion
loop the previously valid merged state — including the slot array — is
retained unchanged, the bad delivery is dropped, and the loop proceeds to
the next delivery. The code contradicts this: evaluating one loop
iteration on a previously valid state with a malformed delivery shows the
bad ChangeSet has already been stored into the slot array (only the merged
Set and Value tree are retained), and the iteration returns its error
while STILL HOLDING the exclusive lock (the Parse-failure branch has no
Unlock), so no later delivery can ever be processed. -/
theorem claim1_merge_failure_keeps_bad_slot_and_lock :
    (watchStep jsonReader 0 badCS cfgPrior).1.sets = [some badCS] ∧
    (watchStep jsonReader 0 badCS cfgPrior).1.sets ≠ cfgPrior.sets ∧
    (watchStep jsonReader 0 badCS cfgPrior).1.set = cfgPrior.set ∧
    (watchStep jsonReader 0 badCS cfgPrior).1.vals = cfgPrior.vals ∧
    (watchStep jsonReader 0 badCS cfgPrior).2.1 = true ∧
    (watchStep jsonReader 0 badCS cfgPrior).2.2 = some () := by
  refine ⟨rfl, ?_, rfl, rfl, rfl, rfl⟩
  decide

/-- C2: the claim states Get never blocks and falls back to a synthetic
empty ChangeSet when the bootstrap merge fails. The code contradicts this:
on a fresh aggregator whose only source reads malformed data, sync's
Parse-failure branch returns while still holding the exclusive lock
(second component true), so the Lock() at the top of Get blocks forever
(first component none = the call never returns); the synthetic-ChangeSet
fallback inside Get is unreachable in exactly this situation. -/
theorem claim2_get_blocks_after_failed_bootstrap :
    loaded cfgBad = false ∧
    (sync jsonReader cfgBad).2 = true ∧
    (Get jsonReader cfgBad ["x"] 7).1 = none := ⟨rfl, rfl, rfl⟩

/-- C3 counterexample: the claim states that after Stop every Next call
returns the WatcherStopped error and no update value is ever delivered.
On a stopped watcher whose capacity-one buffer still holds a value that
differs from the last returned one, the Go select has both the closed exit
channel and the buffer ready; when the scheduler picks the buffer branch
(oracle false), Next returns that value, not the stopped error. -/
theorem claim3_stop_not_terminal_counterexample :
    wStopPending.exitClosed = true ∧
    (Next wStopPending [] [false]).1 = NextOutcome.value (Doc.nat 2) := by
  refine ⟨rfl, ?_⟩
  show (NextLoop true [] (Doc.nat 1) (some (Doc.nat 2)) [] [false]).1 = _
  rw [NextLoop]
  rfl

/-- C3 amended: after Stop, Next never blocks; it returns WatcherStopped
whenever the inbound buffer is empty (hence permanently once the buffer is
drained), and the only way it can still return a value is by delivering
the single value already pending in the buffer, after which the buffer is
empty. -/
theorem claim3_stop_terminality_amended (w : WatcherState) (arrivals : List Doc)
    (sched : List Bool) (hexit : w.exitClosed = true) :
    (w.buffer = none → Next w arrivals sched = (.stopped, w)) ∧
    (Next w arrivals sched).1 ≠ NextOutcome.blocked ∧
    (∀ v w', Next w arrivals sched = (.value v, w') → w.buffer = some v ∧ w'.buffer = none) := by
  obtain ⟨e, p, val, b⟩ := w
  simp only at hexit
  subst hexit
  refine ⟨?_, ?_, ?_⟩
  · intro hb
    simp only at hb
    subst hb
    exact (nextLoop_stopped p val none arrivals sched).1 rfl
  · exact (nextLoop_stopped p val b arrivals sched).2.1
  · exact (nextLoop_stopped p val b arrivals sched).2.2

/-- C3 witness: the amended theorem applied to a stopped watcher with a
drained buffer. -/
theorem claim3_stop_terminality_witness :
    (wStopEmpty.buffer = none → Next wStopEmpty [] [] = (.stopped, wStopEmpty)) ∧
    (Next wStopEmpty [] []).1 ≠ NextOutcome.blocked ∧
    (∀ v w', Next wStopEmpty [] [] = (.value v, w') →
      wStopEmpty.buffer = some v ∧ w'.buffer = none) :=
  claim3_stop_terminality_amended wStopEmpty [] [] rfl

/-- C4: the claim states the slot array and the source list always have
the same length, one slot per configured source. The code contradicts it:
Load appends a slot itself AND the ingestion goroutine it spawns appends a
second, nil slot in its prologue, so loading one source into a fresh
aggregator leaves two slots for one source, permanently. -/
theorem claim4_load_slot_length_mismatch :
    (watchPrologue (Load jsonReader (newConfig []) [srcD]).1).sets.length = 2 ∧
    (watchPrologue (Load jsonReader (newConfig []) [srcD]).1).sources.length = 1 := by
  have hsets : (Load jsonReader (newConfig []) [srcD]).1.sets = [some chD] := by
    show (reload jsonReader (List.foldl loadOne (newConfig []) [srcD])).sets = _
    rw [reload_sets]
    rfl
  have hsrcs : (Load jsonReader (newConfig []) [srcD]).1.sources = [srcD] := by
    show (reload jsonReader (List.foldl loadOne (newConfig []) [srcD])).sources = _
    rw [reload_sources]
    rfl
  exact ⟨by simp [watchPrologue, hsets], by simp [watchPrologue, hsrcs]⟩

/-- C5 counterexample: the claim states the shutdown signal is checked
after every blocking re-acquire step, so the loop exits even when stream
acquisition keeps failing. In the code the acquisition-failure branch
sleeps and continues WITHOUT checking the exit channel: with the shutdown
signal already set, three failing acquisition rounds leave the loop still
running. -/
theorem claim5_shutdown_check_skipped_counterexample :
    watchLoop true (List.replicate 3 AcqResult.fail) = false := rfl

/-- C5 amended: once Close has signalled shutdown, the ingestion loop
exits exactly when a stream acquisition succeeds (the check sits after the
successful-acquisition cycle): the loop returns within a trace of
acquisition outcomes iff the trace contains a successful acquisition. -/
theorem claim5_shutdown_check_amended (events : List AcqResult) :
    watchLoop true events = events.contains AcqResult.ok := by
  induction events with
  | nil => rfl
  | cons e rest ih =>
    cases e <;> simp [watchLoop, ih, List.contains_cons]

/-- C6: whenever Next returns a value, that value differs by byte
comparison from the last value returned (or from the baseline captured at
Watch, which initializes the comparison field), and it becomes the new
comparison point — so two consecutive byte-identical values are never
surfaced; byte-equal arrivals are discarded inside the loop. -/
theorem claim6_next_dedup (w : WatcherState) (arrivals : List Doc) (sched : List Bool)
    (v : Doc) (w' : WatcherState)
    (h : Next w arrivals sched = (.value v, w')) :
    Doc.bytes v ≠ Doc.bytes w.value ∧ w'.value = v :=
  nextLoop_dedup w.exitClosed w.path w.value w.buffer arrivals sched v w' h

/-- C6 witness: a live watcher with last value 1 and a pending value 2
returns 2, whose bytes differ from those of 1. -/
theorem claim6_next_dedup_witness :
    Next wLive [] [] = (.value (Doc.nat 2), wLiveAfter) ∧
    (Doc.bytes (Doc.nat 2) ≠ Doc.bytes wLive.value ∧ wLiveAfter.value = Doc.nat 2) := by
  have hnext : Next wLive [] [] = (.value (Doc.nat 2), wLiveAfter) := by
    show NextLoop false [] (Doc.nat 1) (some (Doc.nat 2)) [] [] = _
    rw [NextLoop]
    rfl
  exact ⟨hnext, claim6_next_dedup wLive [] [] (Doc.nat 2) wLiveAfter hnext⟩

/-- C7: fan-out delivery is a non-blocking send into the capacity-one
inbound buffer (modelled as an Option): update leaves an occupied buffer
unchanged (the new update is dropped) and fills an empty one with the
value at the watcher's path, for every registered watcher. -/
theorem claim7_fanout_drop_on_full (c : ConfigState) (vals : Doc) (i : Nat)
    (h : c.vals = some vals) :
    (((update c).watchers[i]?).map fun p => p.2.buffer)
      = ((c.watchers[i]?).map fun p => trySend p.2.buffer (Doc.getPath vals p.2.path)) ∧
    (∀ old v, trySend (some old) v = some old) ∧
    (∀ v, trySend none v = some v) := by
  refine ⟨?_, fun old v => rfl, fun v => rfl⟩
  simp [update, h, List.getElem?_map]
  cases c.watchers[i]? <;> rfl

/-- C7 witness: the theorem applied to a registry with an occupied and a
free watcher. -/
theorem claim7_fanout_drop_on_full_witness :
    ((((update cfgW).watchers[0]?).map fun p => p.2.buffer)
      = ((cfgW.watchers[0]?).map fun p => trySend p.2.buffer (Doc.getPath docA p.2.path)) ∧
     (∀ old v, trySend (some old) v = some old) ∧
     (∀ v, trySend none v = some v)) :=
  claim7_fanout_drop_on_full cfgW docA 0 rfl

/-- C8: Load reads the new source once, appends it to the source list, and
its immediate re-merge makes the new source's value visible to Get right
after Load returns, without any streamed change: if the new source reads a
document binding key k, no existing slot binds k, and the merged document
round-trips through the Reader's serialization, then Get at path k
returns the new source's value for k. -/
theorem claim8_dynamic_load_visible (c : ConfigState) (s : Source) (ch : ChangeSet)
    (bs : List Nat) (k : String) (d : Doc) (docs : List Doc) (now : Nat)
    (hread : s.read = some ch)
    (hdata : ch.data = some bs)
    (hdec : decodeDoc bs = some (Doc.obj [(k, d)]))
    (hslots : decodeSlots c.sets = some docs)
    (habsent : (docs.all (lacksKey k)) = true)
    (hround : decodeDoc (encodeDoc (mergeDocs (docs.foldl mergeDocs newValue) (Doc.obj [(k, d)])))
        = some (mergeDocs (docs.foldl mergeDocs newValue) (Doc.obj [(k, d)]))) :
    (Load jsonReader c [s]).1.sources = c.sources ++ [s] ∧
    (Get jsonReader (Load jsonReader c [s]).1 [k] now).1 = some d := by
  have hsets1 : (List.foldl loadOne c [s]).sets = c.sets ++ [some ch] := by
    simp [loadOne, hread]
  have hsrcs1 : (List.foldl loadOne c [s]).sources = c.sources ++ [s] := by
    simp [loadOne]
  have hslots2 : decodeSlots (List.foldl loadOne c [s]).sets
      = some (docs ++ [Doc.obj [(k, d)]]) := by
    rw [hsets1]
    exact decodeSlots_append_single c.sets ch bs _ docs hslots hdata hdec
  have hfold : (docs ++ [Doc.obj [(k, d)]]).foldl mergeDocs newValue
      = mergeDocs (docs.foldl mergeDocs newValue) (Doc.obj [(k, d)]) := by
    rw [List.foldl_append]
    rfl
  have hparse : jsonParse (List.foldl loadOne c [s]).sets
      = some { source := "json",
               data := some (encodeDoc (mergeDocs (docs.foldl mergeDocs newValue) (Doc.obj [(k, d)]))),
               checksum := "", timestamp := 0 } := by
    simp only [jsonParse, hslots2, hfold]
  have hvals : (Load jsonReader c [s]).1.vals
      = some (mergeDocs (docs.foldl mergeDocs newValue) (Doc.obj [(k, d)])) := by
    have h2 := reload_vals jsonReader (List.foldl loadOne c [s])
      { source := "json",
        data := some (encodeDoc (mergeDocs (docs.foldl mergeDocs newValue) (Doc.obj [(k, d)]))),
        checksum := "", timestamp := 0 } hparse
    calc (Load jsonReader c [s]).1.vals
        = jsonReader.values (some
            { source := "json",
              data := some (encodeDoc (mergeDocs (docs.foldl mergeDocs newValue) (Doc.obj [(k, d)]))),
              checksum := "", timestamp := 0 }) := h2
      _ = some (mergeDocs (docs.foldl mergeDocs newValue) (Doc.obj [(k, d)])) := by
          simp [jsonReader, jsonValues, hround]
  have hbase : lacksKey k (docs.foldl mergeDocs newValue) = true :=
    foldl_mergeDocs_lacksKey docs newValue k (by simp [lacksKey, newValue]) habsent
  constructor
  · show (reload jsonReader (List.foldl loadOne c [s])).sources = _
    rw [reload_sources]
    exact hsrcs1
  · have hgp := getPath_merge_singleton (docs.foldl mergeDocs newValue) k d hbase
    simp [Get, loaded, hvals, hgp]

/-- C8 witness: loading the source with document d:5 into the aggregator
that already merged a:1 makes Get at path d return 5 immediately. -/
theorem claim8_dynamic_load_visible_witness :
    (Load jsonReader cfgPrior [srcD]).1.sources = cfgPrior.sources ++ [srcD] ∧
    (Get jsonReader (Load jsonReader cfgPrior [srcD]).1 ["d"] 0).1 = some (Doc.nat 5) :=
  claim8_dynamic_load_visible cfgPrior srcD chD bytesD "d" (Doc.nat 5) [docA] 0
    rfl rfl rfl rfl (by decide)
    (by simp [mergeDocs, mergeInto, insertKey, newValue, docA]; rfl)

/-- C9: Stop is idempotent — it always returns a nil error, a second Stop
on the resulting state changes nothing, and the watcher's id is removed
from the registry (exactly once, by the removal goroutine fired on the
single transition of the exit channel): after stopping a non-stopped
watcher, no registry entry carries its id. -/
theorem claim9_stop_idempotent (w : WatcherState) (id : Nat)
    (reg : List (Nat × WatcherState)) :
    (Stop w id reg).2.2 = none ∧
    Stop (Stop w id reg).1 id (Stop w id reg).2.1
      = ((Stop w id reg).1, (Stop w id reg).2.1, none) ∧
    ((Stop { w with exitClosed := false } id reg).2.1.all fun p => p.1 != id) = true := by
  refine ⟨?_, ?_, ?_⟩
  · by_cases h : w.exitClosed <;> simp [Stop, h]
  · by_cases h : w.exitClosed <;> simp [Stop, h]
  · simp [Stop, List.all_eq_true, List.mem_filter]

/-- C10: Load returns a nil error for every receiver state, every Reader
and every argument list — even when every Read fails and the re-merge
fails, no error is propagated. -/
theorem claim10_load_returns_nil (R : Reader) (c : ConfigState) (ss : List Source) :
    (Load R c ss).2 = none := rfl

end GoConfig
